import Mathlib

/-!
Verification of the pezzy-hedera backend core: the compound-interest
engine (`src/backend/src/services/interestService.js`) and the
two-manager multi-signature workflow
(`src/backend/src/controllers/managerController.js`).

Numbers held in JavaScript doubles are modelled as rationals (`ℚ`);
timestamps (millisecond epoch values) as integers (`ℤ`).  A JavaScript
expression that evaluates to `NaN` (such as the `0/0` arising in
`effectiveRate` at zero elapsed days) is modelled as `none` in an
`Option ℚ` field.  The external Hedera ledger is an opaque collaborator:
its outcome is an explicit `Except` parameter of the operations that
invoke it, and each invocation is logged in the state so that claims
about how often it is called can be stated.
-/

/-- The domain error kinds raised by the backend (spec taxonomy §7). -/
inductive ApiError where
  | notAuthorized
  | notFound
  | conflict
  | invalidState (s : String)
  | expired
  | duplicateSignature
  | ledgerRejected (msg : String)
  | invalidRate
  | invalidRange
deriving DecidableEq, Repr

/-! ## Interest engine (`interestService.js`) -/

instance {α β : Type} [DecidableEq α] [DecidableEq β] :
    DecidableEq (Except α β) := fun a b =>
  match a, b with
  | .ok x, .ok y =>
    if h : x = y then .isTrue (by rw [h])
    else .isFalse (fun hc => by cases hc; exact h rfl)
  | .error x, .error y =>
    if h : x = y then .isTrue (by rw [h])
    else .isFalse (fun hc => by cases hc; exact h rfl)
  | .ok _, .error _ => .isFalse (fun hc => by cases hc)
  | .error _, .ok _ => .isFalse (fun hc => by cases hc)

/-- JavaScript `Math.round`: round half-up towards `+∞`.
(`Rat.floor` is used rather than `⌊·⌋` to keep the definition
kernel-computable; `jsRound_eq_floor` bridges to the floor API.) -/
def jsRound (x : ℚ) : ℤ := (x + 1/2).floor

theorem jsRound_eq_floor (x : ℚ) : jsRound x = ⌊x + 1/2⌋ := by
  rw [jsRound, Rat.floor_def', ← Rat.floor_def]

/-- Monetary rounding to 2 decimals: `Math.round(x * 100) / 100`. -/
def round2 (x : ℚ) : ℚ := (jsRound (x * 100) : ℚ) / 100

/-- Percentage with 2 decimals: `Math.round(x * 10000) / 100`. -/
def roundPct2 (x : ℚ) : ℚ := (jsRound (x * 10000) : ℚ) / 100

/-- Percentage with 4 decimals: `Math.round(x * 1000000) / 10000`. -/
def roundPct4 (x : ℚ) : ℚ := (jsRound (x * 1000000) : ℚ) / 10000

/-- Mutable state of the `InterestService` singleton: `annualRate` is a
fraction (e.g. `0.085`), `dailyRate = annualRate / 365`. -/
structure InterestState where
  annualRate : ℚ
  dailyRate : ℚ
deriving DecidableEq, Repr

/-- Constructor default: `FUND_ANNUAL_INTEREST_RATE` falls back to 8.5,
so `annualRate = 8.5 / 100 = 17/200` and `dailyRate = annualRate / 365`. -/
def defaultInterestState : InterestState :=
  { annualRate := 17/200, dailyRate := 17/200/365 }

namespace InterestService

/-- Result shape of `calculateInterest`.  The `principal ≤ 0`
short-circuit returns an object without the `dailyRate` and
`effectiveRate` keys, modelled by `none`; `effectiveRate` is also
`none` when the JavaScript computation would yield `NaN` (division by
`timeInYears = 0`). -/
structure InterestResult where
  principal : ℚ
  interest : ℚ
  totalValue : ℚ
  days : ℤ
  annualRate : ℚ
  dailyRate : Option ℚ := none
  effectiveRate : Option ℚ := none
deriving DecidableEq, Repr

def millisecondsPerDay : ℤ := 1000 * 60 * 60 * 24

/-- The source's `calculateInterest(principal, startDate, endDate)`:
compound-interest valuation between two timestamps. -/
def calculateInterest (st : InterestState) (principal : ℚ)
    (startDate endDate : ℤ) : Except ApiError InterestResult :=
  if principal ≤ 0 then
    .ok { principal := 0, interest := 0, totalValue := 0, days := 0,
          annualRate := st.annualRate * 100 }
  else
    let daysElapsed : ℤ := (((endDate - startDate : ℤ) : ℚ) / (millisecondsPerDay : ℚ)).floor
    if daysElapsed < 0 then
      .error .invalidRange
    else
      let timeInYears : ℚ := (daysElapsed : ℚ) / 365
      let compoundFactor : ℚ := (1 + st.dailyRate) ^ daysElapsed.toNat
      let totalValue : ℚ := principal * compoundFactor
      let interestEarned : ℚ := totalValue - principal
      .ok { principal := round2 principal,
            interest := round2 interestEarned,
            totalValue := round2 totalValue,
            days := daysElapsed,
            annualRate := roundPct2 st.annualRate,
            dailyRate := some (roundPct4 st.dailyRate),
            effectiveRate :=
              if timeInYears = 0 then none
              else some (roundPct2 ((totalValue / principal - 1) / timeInYears)) }

/-- Result shape of `calculateInterestForPeriod`. -/
structure PeriodResult where
  principal : ℚ
  days : ℕ
  interest : ℚ
  totalValue : ℚ
  annualRate : ℚ
deriving DecidableEq, Repr

/-- The source's `calculateInterestForPeriod(principal, days)`: compound interest for
a day count, no date validation. -/
def calculateInterestForPeriod (st : InterestState) (principal : ℚ)
    (days : ℕ) : PeriodResult :=
  let compoundFactor : ℚ := (1 + st.dailyRate) ^ days
  let totalValue : ℚ := principal * compoundFactor
  let interestEarned : ℚ := totalValue - principal
  { principal := principal, days := days,
    interest := round2 interestEarned,
    totalValue := round2 totalValue,
    annualRate := roundPct2 st.annualRate }

/-- Success payload of `updateInterestRate`. -/
structure RateUpdateResult where
  newAnnualRate : ℚ
  newDailyRate : ℚ
  apy : ℚ
deriving DecidableEq, Repr

/-- The service-level `updateInterestRate(newRate)`: validates
`0 ≤ newRate ≤ 100` (throws otherwise, touching nothing), then sets
`annualRate = newRate / 100` and `dailyRate = annualRate / 365`. -/
def updateInterestRate (st : InterestState) (newRate : ℚ) :
    InterestState × Except ApiError RateUpdateResult :=
  if newRate < 0 ∨ newRate > 100 then
    (st, .error .invalidRate)
  else
    let st' : InterestState :=
      { annualRate := newRate / 100, dailyRate := newRate / 100 / 365 }
    (st', .ok { newAnnualRate := newRate,
                newDailyRate := roundPct4 st'.dailyRate,
                apy := roundPct2 ((1 + st'.dailyRate) ^ 365 - 1) })

end InterestService

/-! ## Multi-signature workflow (`managerController.js`)

User, token and request records mirror the Mongoose schemas in
`models/index.js`; account / transaction / request identifiers are
modelled as naturals.  The Hedera ledger is external: the outcome of
`hederaService.createTokenWithMultiSig` is an explicit parameter of
`approveTokenCreation`, and every invocation of it is logged in
`ledgerCalls` (keyed by the request id it was made for). -/

inductive Role where
  | investor | manager | admin
deriving DecidableEq, Repr

structure User where
  id : ℕ
  role : Role
  hederaAccountId : ℕ
deriving DecidableEq, Repr

inductive RequestType where
  | token_creation | token_mint | token_burn | interest_distribution | rate_change
deriving DecidableEq, Repr

inductive ReqStatus where
  | pending | approved | rejected | executed
deriving DecidableEq, Repr

def statusName : ReqStatus → String
  | .pending => "pending"
  | .approved => "approved"
  | .rejected => "rejected"
  | .executed => "executed"

/-- One entry of a request's `signatures` array. -/
structure Signature where
  managerId : ℕ
  managerAccountId : ℕ
  signedAt : ℤ
deriving DecidableEq, Repr

/-- Token parameters carried by a `token_creation` request's
`requestData`. -/
structure TokenParams where
  tokenName : String
  tokenSymbol : String
  decimals : ℕ
  initialSupply : ℕ
deriving DecidableEq, Repr

/-- The `requestData` payload is schema-less (`Mixed`): `initiateTokenCreation`
stores token parameters, `updateInterestRate` stores the new and
previous rate. -/
inductive RequestData where
  | tokenParams (p : TokenParams)
  | rateParams (newRate previousRate : ℚ)
deriving DecidableEq, Repr

structure MultiSigRequest where
  requestType : RequestType
  requestData : RequestData
  requiredSignatures : ℕ
  signatures : List Signature
  status : ReqStatus
  createdBy : ℕ
  expiresAt : ℤ
  executedAt : Option ℤ := none
  executionTransactionId : Option ℕ := none
  metadata : Option String := none
deriving DecidableEq, Repr

/-- Result object returned by `hederaService.createTokenWithMultiSig`. -/
structure TokenResult where
  tokenId : ℕ
  name : String
  symbol : String
  decimals : ℕ
  initialSupply : ℕ
  treasuryAccount : ℕ
  managers : ℕ × ℕ
  transactionId : ℕ
deriving DecidableEq, Repr

/-- The persisted `Token` record. -/
structure Token where
  tokenId : ℕ
  name : String
  symbol : String
  decimals : ℕ
  totalSupply : ℕ
  treasuryAccountId : ℕ
  manager1AccountId : ℕ
  manager2AccountId : ℕ
  creationTransactionId : ℕ
  isActive : Bool
deriving DecidableEq, Repr

/-- The `Token` document built from a ledger result in
`approveTokenCreation`. -/
def tokenOfResult (tr : TokenResult) : Token :=
  { tokenId := tr.tokenId, name := tr.name, symbol := tr.symbol,
    decimals := tr.decimals, totalSupply := tr.initialSupply,
    treasuryAccountId := tr.treasuryAccount,
    manager1AccountId := tr.managers.1, manager2AccountId := tr.managers.2,
    creationTransactionId := tr.transactionId, isActive := true }

/-- The backend's persisted state: users, multi-sig requests (id-keyed),
tokens, the interest-service singleton, and the log of
`createTokenWithMultiSig` invocations. -/
structure SysState where
  users : List User
  requests : List (ℕ × MultiSigRequest)
  nextRequestId : ℕ
  tokens : List Token
  interest : InterestState
  ledgerCalls : List (ℕ × RequestData)
deriving DecidableEq, Repr

/-- Mongoose `save` of an updated request document: replace the entry
with the given id. -/
def setRequest (l : List (ℕ × MultiSigRequest)) (id : ℕ)
    (r : MultiSigRequest) : List (ℕ × MultiSigRequest) :=
  l.map (fun p => if p.1 = id then (id, r) else p)

def findUser (st : SysState) (userId : ℕ) : Option User :=
  st.users.find? (fun u => u.id == userId)

def findRequest (st : SysState) (requestId : ℕ) :
    Option (ℕ × MultiSigRequest) :=
  st.requests.find? (fun p => p.1 == requestId)

/-- Number of ledger (`createTokenWithMultiSig`) invocations made on
behalf of request `id`. -/
def countCalls (st : SysState) (id : ℕ) : ℕ :=
  (st.ledgerCalls.filter (fun c => c.1 == id)).length

/-- Twenty-four hours in milliseconds (`expiresAt.setHours(getHours() + 24)`). -/
def expiryWindow : ℤ := 24 * 60 * 60 * 1000

/-- The `FUND_ANNUAL_INTEREST_RATE` default used as `previousRate` when a
rate-change request is opened. -/
def envAnnualRatePercent : ℚ := 8.5

/-- Controller `initiateTokenCreation` (`managerController.js:19`): manager check,
singleton-token check, then a new `pending` request carrying exactly the
initiator's signature, expiring 24 h out.  Returns the new request id. -/
def initiateTokenCreation (st : SysState) (userId : ℕ) (body : TokenParams)
    (now : ℤ) : SysState × Except ApiError ℕ :=
  match findUser st userId with
  | none => (st, .error .notAuthorized)
  | some u =>
    if u.role ≠ Role.manager then (st, .error .notAuthorized)
    else if st.tokens ≠ [] then (st, .error .conflict)
    else
      let req : MultiSigRequest :=
        { requestType := .token_creation,
          requestData := .tokenParams body,
          requiredSignatures := 2,
          signatures := [{ managerId := userId,
                           managerAccountId := u.hederaAccountId,
                           signedAt := now }],
          status := .pending,
          createdBy := userId,
          expiresAt := now + expiryWindow }
      ({ st with requests := st.requests ++ [(st.nextRequestId, req)],
                 nextRequestId := st.nextRequestId + 1 },
       .ok st.nextRequestId)

/-- Controller `approveTokenCreation` (`managerController.js:97`): manager check,
request lookup, pending check, lazy-expiry check (persisting the
`rejected` transition before failing), duplicate-signature check; then
the second signature is appended, the request saved as `approved`, and
the ledger call made with the request's `requestData` — note that
`requestType` is never inspected.  On ledger success a `Token` record is
inserted and the request saved as `executed`; on ledger failure the
request is saved as `rejected` with the error in `metadata` and the
error is re-raised. -/
def approveTokenCreation (st : SysState) (userId requestId : ℕ) (now : ℤ)
    (ledger : Except String TokenResult) :
    SysState × Except ApiError TokenResult :=
  match findUser st userId with
  | none => (st, .error .notAuthorized)
  | some u =>
    if u.role ≠ Role.manager then (st, .error .notAuthorized)
    else
      match findRequest st requestId with
      | none => (st, .error .notFound)
      | some (rid, req) =>
        if req.status ≠ ReqStatus.pending then
          (st, .error (.invalidState (statusName req.status)))
        else if req.expiresAt < now then
          ({ st with requests :=
               setRequest st.requests rid { req with status := .rejected } },
           .error .expired)
        else if req.signatures.any (fun sig => sig.managerId == userId) then
          (st, .error .duplicateSignature)
        else
          let req1 : MultiSigRequest :=
            { req with
              signatures := req.signatures ++
                [{ managerId := userId, managerAccountId := u.hederaAccountId,
                   signedAt := now }],
              status := .approved }
          let st1 : SysState :=
            { st with requests := setRequest st.requests rid req1,
                      ledgerCalls := st.ledgerCalls ++ [(rid, req.requestData)] }
          match ledger with
          | .ok tr =>
            ({ st1 with
                 tokens := st1.tokens ++ [tokenOfResult tr],
                 requests := setRequest st1.requests rid
                   ({ req1 with status := .executed, executedAt := some now,
                                executionTransactionId := some tr.transactionId }) },
             .ok tr)
          | .error msg =>
            ({ st1 with
                 requests := setRequest st1.requests rid
                   ({ req1 with status := .rejected, metadata := some msg }) },
             .error (.ledgerRejected msg))

/-- Controller `updateInterestRate` (`managerController.js:384`): manager check,
rate validation (`!newRate || newRate < 0 || newRate > 100`, so `0` is
also rejected as falsy), then it only *opens* a pending `rate_change`
multi-sig request — the interest-service state is not touched. -/
def updateInterestRateCtrl (st : SysState) (userId : ℕ) (newRate : ℚ)
    (now : ℤ) : SysState × Except ApiError ℕ :=
  match findUser st userId with
  | none => (st, .error .notAuthorized)
  | some u =>
    if u.role ≠ Role.manager then (st, .error .notAuthorized)
    else if newRate = 0 ∨ newRate < 0 ∨ newRate > 100 then
      (st, .error .invalidRate)
    else
      let req : MultiSigRequest :=
        { requestType := .rate_change,
          requestData := .rateParams newRate envAnnualRatePercent,
          requiredSignatures := 2,
          signatures := [{ managerId := userId,
                           managerAccountId := u.hederaAccountId,
                           signedAt := now }],
          status := .pending,
          createdBy := userId,
          expiresAt := now + expiryWindow }
      ({ st with requests := st.requests ++ [(st.nextRequestId, req)],
                 nextRequestId := st.nextRequestId + 1 },
       .ok st.nextRequestId)

/-- A state with no requests, tokens or ledger calls yet: the backend as
deployed, before any manager operation. -/
def initialState (users : List User) : SysState :=
  { users := users, requests := [], nextRequestId := 0, tokens := [],
    interest := defaultInterestState, ledgerCalls := [] }

/-- One incoming manager operation (the environment chooses the caller,
the payload, the clock and the ledger outcome). -/
inductive Step : SysState → SysState → Prop where
  | initiate (st : SysState) (userId : ℕ) (body : TokenParams) (now : ℤ) :
      Step st (initiateTokenCreation st userId body now).1
  | approve (st : SysState) (userId requestId : ℕ) (now : ℤ)
      (ledger : Except String TokenResult) :
      Step st (approveTokenCreation st userId requestId now ledger).1
  | updateRate (st : SysState) (userId : ℕ) (newRate : ℚ) (now : ℤ) :
      Step st (updateInterestRateCtrl st userId newRate now).1

/-- States reachable from a fresh deployment. -/
inductive Reachable : SysState → Prop where
  | init (users : List User) : Reachable (initialState users)
  | step {s s' : SysState} : Reachable s → Step s s' → Reachable s'

/-! ## Helper lemmas: rounding and floors -/

theorem ratFloor_eq (x : ℚ) : x.floor = ⌊x⌋ := by
  rw [Rat.floor_def', ← Rat.floor_def]

/-- Half-up rounding to cents moves a value by at most half a cent. -/
theorem round2_close (x : ℚ) : |round2 x - x| ≤ 1/200 := by
  rw [round2, jsRound_eq_floor]
  have h1 : ((⌊x * 100 + 1/2⌋ : ℤ) : ℚ) ≤ x * 100 + 1/2 := Int.floor_le _
  have h2 : x * 100 + 1/2 - 1 < ((⌊x * 100 + 1/2⌋ : ℤ) : ℚ) := Int.sub_one_lt_floor _
  rw [abs_le]
  constructor <;> nlinarith [h1, h2]

theorem daysFloor_neg_iff (s e : ℤ) :
    ((((e - s : ℤ) : ℚ)) / ((InterestService.millisecondsPerDay : ℤ) : ℚ)).floor < 0 ↔ e < s := by
  rw [ratFloor_eq]
  have hc : (0:ℚ) < ((InterestService.millisecondsPerDay : ℤ) : ℚ) := by
    norm_num [InterestService.millisecondsPerDay]
  constructor
  · intro h
    by_contra hes
    push_neg at hes
    have h0 : (0:ℚ) ≤ ((e - s : ℤ) : ℚ) / ((InterestService.millisecondsPerDay : ℤ) : ℚ) := by
      apply div_nonneg _ (le_of_lt hc)
      exact_mod_cast Int.sub_nonneg.mpr hes
    have := Int.floor_nonneg.mpr h0
    omega
  · intro h
    have hq : ((e - s : ℤ) : ℚ) / ((InterestService.millisecondsPerDay : ℤ) : ℚ) < 0 := by
      apply div_neg_of_neg_of_pos _ hc
      have hs : e - s < 0 := by omega
      exact_mod_cast hs
    have h0 := not_le.mpr hq
    have := (not_iff_not.mpr Int.floor_nonneg).mpr h0
    omega

/-! ## Claim theorems: interest engine -/

/-- C7: `calculateInterest` fails (with `InvalidRangeError`, the only
error it raises) exactly when `principal > 0` and `endDate < startDate`;
when `principal ≤ 0` it short-circuits to the zeroed result with
`days = 0` without consulting the dates; and on `principal > 0`,
`endDate ≥ startDate` it succeeds with
`days = ⌊(endDate − startDate) / oneDayMs⌋`. -/
theorem calculateInterest_error_contract (st : InterestState) (p : ℚ) (s e : ℤ) :
    (InterestService.calculateInterest st p s e = .error .invalidRange ↔ 0 < p ∧ e < s) ∧
    (∀ err, InterestService.calculateInterest st p s e = .error err → err = .invalidRange) ∧
    (p ≤ 0 → InterestService.calculateInterest st p s e =
       .ok { principal := 0, interest := 0, totalValue := 0, days := 0,
             annualRate := st.annualRate * 100 }) ∧
    (0 < p → s ≤ e → ∃ r, InterestService.calculateInterest st p s e = .ok r ∧
       r.days = ⌊((e - s : ℤ) : ℚ) / ((InterestService.millisecondsPerDay : ℤ) : ℚ)⌋) := by
  simp only [InterestService.calculateInterest]
  split_ifs with h1 h2 h3
  · refine ⟨by simp [not_lt.mpr h1], by simp, fun _ => rfl, ?_⟩
    intro hp _
    exact absurd hp (not_lt.mpr h1)
  · rw [daysFloor_neg_iff] at h2
    exact ⟨by simp [not_le.mp h1, h2], by simp, fun hp => absurd hp h1,
           fun _ hse => absurd h2 (not_lt.mpr hse)⟩
  · rw [daysFloor_neg_iff] at h2
    exact ⟨by simp [h2], by simp, fun hp => absurd hp h1,
           fun _ _ => ⟨_, rfl, (ratFloor_eq _).symm⟩⟩
  · rw [daysFloor_neg_iff] at h2
    exact ⟨by simp [h2], by simp, fun hp => absurd hp h1,
           fun _ _ => ⟨_, rfl, (ratFloor_eq _).symm⟩⟩

/-- Witness for C7: error at `endDate < startDate`, zeroed result at
`principal = -5`, and a 2-day success run. -/
theorem calculateInterest_error_contract_witness :
    InterestService.calculateInterest defaultInterestState 100 172800000 0
        = .error .invalidRange ∧
    InterestService.calculateInterest defaultInterestState (-5) 0 100
        = .ok { principal := 0, interest := 0, totalValue := 0, days := 0,
                annualRate := defaultInterestState.annualRate * 100 } ∧
    (∃ r, InterestService.calculateInterest defaultInterestState 100 0 172800005 = .ok r ∧
       r.days = ⌊((172800005 - 0 : ℤ) : ℚ) / ((InterestService.millisecondsPerDay : ℤ) : ℚ)⌋) :=
  ⟨(calculateInterest_error_contract defaultInterestState 100 172800000 0).1.mpr
      ⟨by norm_num, by norm_num⟩,
   (calculateInterest_error_contract defaultInterestState (-5) 0 100).2.2.1 (by norm_num),
   (calculateInterest_error_contract defaultInterestState 100 0 172800005).2.2.2
      (by norm_num) (by norm_num)⟩

/-- C8 (code bug): at zero elapsed days `calculateInterest` does NOT
special-case the effective-rate computation: `timeInYears = 0` makes it
`0 / 0`, i.e. `NaN` in the source (modelled as `none`), not a finite
number. -/
theorem effectiveRate_zero_days_is_nan :
    InterestService.calculateInterest defaultInterestState 100 0 0
      = .ok { principal := 100, interest := 0, totalValue := 100, days := 0,
              annualRate := 17/2, dailyRate := some (233/10000),
              effectiveRate := none } := by
  simp only [InterestService.calculateInterest, defaultInterestState, round2, roundPct2,
             roundPct4, jsRound_eq_floor, InterestService.millisecondsPerDay, ratFloor_eq]
  norm_num

/-- C5 (counterexample): at principal 100000, rate 8.5 %, 90 days the
engine returns totalValue 102117.76, not the claimed ≈102118.79 — off by
1.03, far outside the claimed 0.01 tolerance. -/
theorem periodInterest_concrete_figures_counterexample :
    ¬ |(InterestService.calculateInterestForPeriod defaultInterestState 100000 90).totalValue
        - 10211879/100| ≤ 1/100 := by
  have h : (InterestService.calculateInterestForPeriod defaultInterestState 100000 90).totalValue
      = 10211776/100 := by
    simp only [InterestService.calculateInterestForPeriod, defaultInterestState, round2,
               jsRound_eq_floor]
    norm_num
  rw [h, show (10211776/100 : ℚ) - 10211879/100 = -(103/100) by norm_num, abs_neg,
      abs_of_pos (by norm_num)]
  norm_num

/-- C5 (amended): for every positive principal and day count the
returned totalValue is within 0.01 of `principal × (1+dailyRate)^days`
(the only distortion is the final half-cent rounding); at principal
100000, rate 8.5 %, 90 days the concrete figures are totalValue
102117.76 and interest 2117.76 (not 102118.79 / 2118.79). -/
theorem periodInterest_tolerance_amended :
    (∀ (st : InterestState) (p : ℚ) (days : ℕ), 0 < p →
       |(InterestService.calculateInterestForPeriod st p days).totalValue
          - p * (1 + st.dailyRate) ^ days| ≤ 1/100) ∧
    (InterestService.calculateInterestForPeriod defaultInterestState 100000 90).totalValue
        = 10211776/100 ∧
    (InterestService.calculateInterestForPeriod defaultInterestState 100000 90).interest
        = 211776/100 := by
  refine ⟨fun st p days _ => ?_, ?_, ?_⟩
  · calc |(InterestService.calculateInterestForPeriod st p days).totalValue
          - p * (1 + st.dailyRate) ^ days|
        = |round2 (p * (1 + st.dailyRate) ^ days) - p * (1 + st.dailyRate) ^ days| := rfl
      _ ≤ 1/200 := round2_close _
      _ ≤ 1/100 := by norm_num
  · simp only [InterestService.calculateInterestForPeriod, defaultInterestState, round2,
               jsRound_eq_floor]
    norm_num
  · simp only [InterestService.calculateInterestForPeriod, defaultInterestState, round2,
               jsRound_eq_floor]
    norm_num

/-- Witness for C5 (amended), at principal 3 for 5 days. -/
theorem periodInterest_tolerance_amended_witness :
    (0:ℚ) < 3 ∧
    |(InterestService.calculateInterestForPeriod defaultInterestState 3 5).totalValue
       - 3 * (1 + defaultInterestState.dailyRate) ^ 5| ≤ 1/100 :=
  ⟨by norm_num,
   periodInterest_tolerance_amended.1 defaultInterestState 3 5 (by norm_num)⟩

/-- C6: the service-level `updateInterestRate` rejects any rate outside
`[0, 100]` with `InvalidRateError`, leaving both configured rates
untouched, and for an in-range rate succeeds, setting
`annualRate = newRate/100` and `dailyRate = (newRate/100)/365`. -/
theorem updateRate_validation (st : InterestState) (r : ℚ) :
    (¬ (0 ≤ r ∧ r ≤ 100) →
       InterestService.updateInterestRate st r = (st, .error .invalidRate)) ∧
    (0 ≤ r → r ≤ 100 →
       (InterestService.updateInterestRate st r).1.annualRate = r / 100 ∧
       (InterestService.updateInterestRate st r).1.dailyRate = r / 100 / 365 ∧
       ∃ res, (InterestService.updateInterestRate st r).2 = .ok res) := by
  simp only [InterestService.updateInterestRate]
  split_ifs with hcond
  · refine ⟨fun _ => rfl, fun h0 h100 => ?_⟩
    rcases hcond with h | h
    · exact absurd h0 (not_le.mpr h)
    · exact absurd h100 (not_le.mpr h)
  · simp only [not_or, not_lt] at hcond
    exact ⟨fun hn => absurd ⟨hcond.1, hcond.2⟩ hn,
           fun _ _ => ⟨rfl, rfl, _, rfl⟩⟩

/-- Witness for C6: `updateRate(-1)` and `updateRate(101)` fail leaving
the state untouched; `updateRate(10)` takes effect. -/
theorem updateRate_validation_witness :
    InterestService.updateInterestRate defaultInterestState (-1)
        = (defaultInterestState, .error .invalidRate) ∧
    InterestService.updateInterestRate defaultInterestState 101
        = (defaultInterestState, .error .invalidRate) ∧
    (InterestService.updateInterestRate defaultInterestState 10).1.annualRate = 10 / 100 :=
  ⟨(updateRate_validation defaultInterestState (-1)).1 (by norm_num),
   (updateRate_validation defaultInterestState 101).1 (by norm_num),
   ((updateRate_validation defaultInterestState 10).2 (by norm_num) (by norm_num)).1⟩

theorem setRequest_keys (l : List (ℕ × MultiSigRequest)) (id : ℕ) (r : MultiSigRequest) :
    (setRequest l id r).map Prod.fst = l.map Prod.fst := by
  induction l with
  | nil => rfl
  | cons q t ih =>
    simp only [setRequest, List.map_cons] at ih ⊢
    rw [ih]
    by_cases h : q.1 = id
    · simp [h]
    · simp [h]

theorem mem_setRequest {l : List (ℕ × MultiSigRequest)} {id : ℕ} {r : MultiSigRequest}
    {q : ℕ × MultiSigRequest} (h : q ∈ setRequest l id r) : q = (id, r) ∨ (q ∈ l ∧ q.1 ≠ id) := by
  simp only [setRequest, List.mem_map] at h
  obtain ⟨p, hp, hpq⟩ := h
  by_cases hc : p.1 = id
  · left
    rw [← hpq, if_pos hc]
  · right
    rw [← hpq, if_neg hc]
    exact ⟨hp, hc⟩

theorem setRequest_mem {l : List (ℕ × MultiSigRequest)} {id : ℕ} {old : MultiSigRequest}
    (h : (id, old) ∈ l) (r : MultiSigRequest) : (id, r) ∈ setRequest l id r := by
  simp only [setRequest, List.mem_map]
  exact ⟨(id, old), h, by simp⟩

theorem mem_setRequest_of_ne {l : List (ℕ × MultiSigRequest)} {id : ℕ} {r : MultiSigRequest}
    {q : ℕ × MultiSigRequest} (hq : q ∈ l) (hne : q.1 ≠ id) : q ∈ setRequest l id r := by
  simp only [setRequest, List.mem_map]
  exact ⟨q, hq, by rw [if_neg hne]⟩

theorem setRequest_setRequest (l : List (ℕ × MultiSigRequest)) (id : ℕ) (a b : MultiSigRequest) :
    setRequest (setRequest l id a) id b = setRequest l id b := by
  induction l with
  | nil => rfl
  | cons q t ih =>
    simp only [setRequest, List.map_cons] at ih ⊢
    rw [ih]
    by_cases h : q.1 = id
    · simp [h]
    · simp [h]

theorem find?_setRequest : ∀ (l : List (ℕ × MultiSigRequest)) (id : ℕ) (r : MultiSigRequest)
    (old : ℕ × MultiSigRequest), l.find? (fun p => p.1 == id) = some old →
    (setRequest l id r).find? (fun p => p.1 == id) = some (id, r)
  | [], _, _, _, h => by simp at h
  | q :: t, id, r, old, h => by
    by_cases hc : q.1 = id
    · simp [setRequest, List.find?_cons, hc]
    · rw [List.find?_cons_of_neg _ (by simp [hc])] at h
      have ih := find?_setRequest t id r old h
      simp only [setRequest, List.map_cons] at ih ⊢
      rw [if_neg hc, List.find?_cons_of_neg _ (by simp [hc])]
      exact ih

theorem nodup_keys_unique : ∀ {l : List (ℕ × MultiSigRequest)}, (l.map Prod.fst).Nodup →
    ∀ {id : ℕ} {a b : MultiSigRequest}, (id, a) ∈ l → (id, b) ∈ l → a = b := by
  intro l
  induction l with
  | nil => intro _ id a b ha; simp at ha
  | cons q t ih =>
    intro hnd id a b ha hb
    simp only [List.map_cons, List.nodup_cons] at hnd
    rcases List.mem_cons.mp ha with h1 | h1
    · rcases List.mem_cons.mp hb with h2 | h2
      · exact (Prod.ext_iff.mp (h1.trans h2.symm)).2
      · exfalso
        apply hnd.1
        have hm := List.mem_map_of_mem Prod.fst h2
        rw [← h1]
        exact hm
    · rcases List.mem_cons.mp hb with h2 | h2
      · exfalso
        apply hnd.1
        have hm := List.mem_map_of_mem Prod.fst h1
        rw [← h2]
        exact hm
      · exact ih hnd.2 h1 h2

theorem countCalls_append_list (l : List (ℕ × RequestData)) (rid : ℕ) (d : RequestData) (id : ℕ) :
    ((l ++ [(rid, d)]).filter (fun c => c.1 == id)).length
      = (l.filter (fun c => c.1 == id)).length + (if rid = id then 1 else 0) := by
  rw [List.filter_append, List.length_append]
  congr 1
  by_cases h : rid = id <;> simp [h]

theorem approve_eq_of_nonpending {st : SysState} {userId requestId : ℕ} {u : User}
    {rid : ℕ} {req : MultiSigRequest} (now : ℤ) (ledger : Except String TokenResult)
    (hu : findUser st userId = some u) (hrole : u.role = Role.manager)
    (hfr : findRequest st requestId = some (rid, req))
    (hst : req.status ≠ ReqStatus.pending) :
    approveTokenCreation st userId requestId now ledger
      = (st, .error (.invalidState (statusName req.status))) := by
  simp only [approveTokenCreation, hu, hfr, hrole]
  simp [hst]

theorem approve_eq_of_expired {st : SysState} {userId requestId : ℕ} {u : User}
    {rid : ℕ} {req : MultiSigRequest} {now : ℤ} (ledger : Except String TokenResult)
    (hu : findUser st userId = some u) (hrole : u.role = Role.manager)
    (hfr : findRequest st requestId = some (rid, req))
    (hst : req.status = ReqStatus.pending) (hexp : req.expiresAt < now) :
    approveTokenCreation st userId requestId now ledger
      = ({ st with requests := setRequest st.requests rid ({ req with status := .rejected }) },
         .error .expired) := by
  simp only [approveTokenCreation, hu, hfr, hrole]
  simp [hst, hexp]

theorem approve_eq_of_dup {st : SysState} {userId requestId : ℕ} {u : User}
    {rid : ℕ} {req : MultiSigRequest} {now : ℤ} (ledger : Except String TokenResult)
    (hu : findUser st userId = some u) (hrole : u.role = Role.manager)
    (hfr : findRequest st requestId = some (rid, req))
    (hst : req.status = ReqStatus.pending) (hexp : ¬ req.expiresAt < now)
    (hany : req.signatures.any (fun sig => sig.managerId == userId) = true) :
    approveTokenCreation st userId requestId now ledger
      = (st, .error .duplicateSignature) := by
  simp only [approveTokenCreation, hu, hfr, hrole]
  simp [hst, hexp, hany]

theorem approve_eq_of_ok {st : SysState} {userId requestId : ℕ} {u : User}
    {rid : ℕ} {req : MultiSigRequest} {now : ℤ} (tr : TokenResult)
    (hu : findUser st userId = some u) (hrole : u.role = Role.manager)
    (hfr : findRequest st requestId = some (rid, req))
    (hst : req.status = ReqStatus.pending) (hexp : ¬ req.expiresAt < now)
    (hany : req.signatures.any (fun sig => sig.managerId == userId) = false) :
    approveTokenCreation st userId requestId now (.ok tr)
      = ({ st with
             requests := setRequest st.requests rid
               ({ req with
                    signatures := req.signatures ++
                      [{ managerId := userId, managerAccountId := u.hederaAccountId,
                         signedAt := now }],
                    status := .executed, executedAt := some now,
                    executionTransactionId := some tr.transactionId }),
             tokens := st.tokens ++ [tokenOfResult tr],
             ledgerCalls := st.ledgerCalls ++ [(rid, req.requestData)] },
         .ok tr) := by
  simp only [approveTokenCreation, hu, hfr, hrole]
  simp [hst, hexp, hany, setRequest_setRequest]

theorem approve_eq_of_ledgerError {st : SysState} {userId requestId : ℕ} {u : User}
    {rid : ℕ} {req : MultiSigRequest} {now : ℤ} (msg : String)
    (hu : findUser st userId = some u) (hrole : u.role = Role.manager)
    (hfr : findRequest st requestId = some (rid, req))
    (hst : req.status = ReqStatus.pending) (hexp : ¬ req.expiresAt < now)
    (hany : req.signatures.any (fun sig => sig.managerId == userId) = false) :
    approveTokenCreation st userId requestId now (.error msg)
      = ({ st with
             requests := setRequest st.requests rid
               ({ req with
                    signatures := req.signatures ++
                      [{ managerId := userId, managerAccountId := u.hederaAccountId,
                         signedAt := now }],
                    status := .rejected, metadata := some msg }),
             ledgerCalls := st.ledgerCalls ++ [(rid, req.requestData)] },
         .error (.ledgerRejected msg)) := by
  simp only [approveTokenCreation, hu, hfr, hrole]
  simp [hst, hexp, hany, setRequest_setRequest]

theorem initiate_eq_of_conflict {st : SysState} {userId : ℕ} {u : User}
    (body : TokenParams) (now : ℤ)
    (hu : findUser st userId = some u) (hrole : u.role = Role.manager)
    (htok : st.tokens ≠ []) :
    initiateTokenCreation st userId body now = (st, .error .conflict) := by
  simp only [initiateTokenCreation, hu, hrole]
  simp [htok]

theorem initiate_eq_of_ok {st : SysState} {userId : ℕ} {u : User}
    (body : TokenParams) (now : ℤ)
    (hu : findUser st userId = some u) (hrole : u.role = Role.manager)
    (htok : st.tokens = []) :
    initiateTokenCreation st userId body now
      = ({ st with
             requests := st.requests ++
               [(st.nextRequestId,
                 { requestType := .token_creation,
                   requestData := .tokenParams body,
                   requiredSignatures := 2,
                   signatures := [{ managerId := userId,
                                    managerAccountId := u.hederaAccountId,
                                    signedAt := now }],
                   status := .pending,
                   createdBy := userId,
                   expiresAt := now + expiryWindow })],
             nextRequestId := st.nextRequestId + 1 },
         .ok st.nextRequestId) := by
  simp only [initiateTokenCreation, hu, hrole]
  simp [htok]

theorem updateRateCtrl_eq_of_ok {st : SysState} {userId : ℕ} {u : User}
    {newRate : ℚ} (now : ℤ)
    (hu : findUser st userId = some u) (hrole : u.role = Role.manager)
    (hval : ¬ (newRate = 0 ∨ newRate < 0 ∨ newRate > 100)) :
    updateInterestRateCtrl st userId newRate now
      = ({ st with
             requests := st.requests ++
               [(st.nextRequestId,
                 { requestType := .rate_change,
                   requestData := .rateParams newRate envAnnualRatePercent,
                   requiredSignatures := 2,
                   signatures := [{ managerId := userId,
                                    managerAccountId := u.hederaAccountId,
                                    signedAt := now }],
                   status := .pending,
                   createdBy := userId,
                   expiresAt := now + expiryWindow })],
             nextRequestId := st.nextRequestId + 1 },
         .ok st.nextRequestId) := by
  simp only [updateInterestRateCtrl, hu, hrole]
  simp [hval]

/-- The per-request well-formedness the workflow maintains: a pending
request carries exactly the initiator's signature, and an executed one
carries exactly two distinct manager identities. -/
def GoodReq (p : ℕ × MultiSigRequest) : Prop :=
  (p.2.status = .pending → p.2.signatures.map Signature.managerId = [p.2.createdBy]) ∧
  (p.2.status = .executed →
    (p.2.signatures.map Signature.managerId).length = 2 ∧
    (p.2.signatures.map Signature.managerId).Nodup)

/-- The inductive system invariant: request ids are unique and below the
id counter, every request is well-formed, and each request has been the
subject of at most one ledger call — exactly one when (and only when) it
has moved to `executed` or `rejected`. -/
structure SysInv (st : SysState) : Prop where
  keysNodup : (st.requests.map Prod.fst).Nodup
  keysLt : ∀ p ∈ st.requests, p.1 < st.nextRequestId
  good : ∀ p ∈ st.requests, GoodReq p
  exec : ∀ id : ℕ, countCalls st id = 0 ∨
    (countCalls st id = 1 ∧ ∃ req, (id, req) ∈ st.requests ∧
      (req.status = .executed ∨ req.status = .rejected))

theorem sysInv_initial (users : List User) : SysInv (initialState users) := by
  refine ⟨by simp [initialState], by simp [initialState], by simp [initialState], ?_⟩
  intro id
  left
  simp [initialState, countCalls]

theorem sysInv_append_fresh {st : SysState} (hinv : SysInv st) (req : MultiSigRequest)
    (hp : req.status = .pending)
    (hsig : req.signatures.map Signature.managerId = [req.createdBy]) :
    SysInv { st with requests := st.requests ++ [(st.nextRequestId, req)],
                     nextRequestId := st.nextRequestId + 1 } := by
  refine ⟨?_, ?_, ?_, ?_⟩
  · simp only [List.map_append, List.map_cons, List.map_nil]
    rw [List.nodup_append]
    refine ⟨hinv.keysNodup, by simp, ?_⟩
    intro a ha
    simp only [List.mem_singleton]
    intro hc
    rcases List.mem_map.mp ha with ⟨p, hpmem, hpa⟩
    have := hinv.keysLt p hpmem
    omega
  · intro p hp'
    dsimp only
    rcases List.mem_append.mp hp' with h | h
    · have := hinv.keysLt p h
      omega
    · simp only [List.mem_singleton] at h
      subst h
      simp
  · intro p hp'
    rcases List.mem_append.mp hp' with h | h
    · exact hinv.good p h
    · simp only [List.mem_singleton] at h
      subst h
      exact ⟨fun _ => hsig, fun hx => by rw [hp] at hx; cases hx⟩
  · intro id
    have hc : countCalls { st with requests := st.requests ++ [(st.nextRequestId, req)],
                                   nextRequestId := st.nextRequestId + 1 } id
        = countCalls st id := rfl
    rw [hc]
    rcases hinv.exec id with h | ⟨h1, r, hr, hst⟩
    · exact Or.inl h
    · exact Or.inr ⟨h1, r, List.mem_append_left _ hr, hst⟩

/-- Auxiliary: a pending request has never been the subject of a ledger
call. -/
theorem countCalls_zero_of_pending {st : SysState} (hinv : SysInv st) {rid : ℕ}
    {req : MultiSigRequest} (hmem : (rid, req) ∈ st.requests)
    (hpend : req.status = .pending) : countCalls st rid = 0 := by
  rcases hinv.exec rid with h | ⟨_, r, hr, hst⟩
  · exact h
  · have := nodup_keys_unique hinv.keysNodup hmem hr
    subst this
    rw [hpend] at hst
    rcases hst with h | h <;> cases h

theorem sysInv_set_rejected {st : SysState} (hinv : SysInv st) {rid : ℕ}
    {req : MultiSigRequest} (hmem : (rid, req) ∈ st.requests)
    (hpend : req.status = .pending) (req' : MultiSigRequest)
    (hst' : req'.status = .rejected) :
    SysInv { st with requests := setRequest st.requests rid req' } := by
  refine ⟨?_, ?_, ?_, ?_⟩
  · dsimp only
    rw [setRequest_keys]
    exact hinv.keysNodup
  · intro p hp'
    dsimp only at hp' ⊢
    rcases mem_setRequest hp' with h | ⟨h, _⟩
    · subst h
      exact hinv.keysLt (rid, req) hmem
    · exact hinv.keysLt p h
  · intro p hp'
    dsimp only at hp'
    rcases mem_setRequest hp' with h | ⟨h, _⟩
    · subst h
      refine ⟨fun hx => ?_, fun hx => ?_⟩ <;> simp [hst'] at hx
    · exact hinv.good p h
  · intro id
    have hc : countCalls { st with requests := setRequest st.requests rid req' } id
        = countCalls st id := rfl
    rw [hc]
    by_cases hid : id = rid
    · subst hid
      exact Or.inl (countCalls_zero_of_pending hinv hmem hpend)
    · rcases hinv.exec id with h | ⟨h1, r, hr, hst⟩
      · exact Or.inl h
      · exact Or.inr ⟨h1, r, mem_setRequest_of_ne hr hid, hst⟩

theorem sysInv_set_exec {st : SysState} (hinv : SysInv st) {rid : ℕ}
    {req : MultiSigRequest} (hmem : (rid, req) ∈ st.requests)
    (hpend : req.status = .pending) (req' : MultiSigRequest)
    (hst' : req'.status = .executed ∨ req'.status = .rejected)
    (hgood : GoodReq (rid, req')) (d : RequestData) (tokens' : List Token) :
    SysInv { st with requests := setRequest st.requests rid req',
                     tokens := tokens',
                     ledgerCalls := st.ledgerCalls ++ [(rid, d)] } := by
  refine ⟨?_, ?_, ?_, ?_⟩
  · dsimp only
    rw [setRequest_keys]
    exact hinv.keysNodup
  · intro p hp'
    dsimp only at hp' ⊢
    rcases mem_setRequest hp' with h | ⟨h, _⟩
    · subst h
      exact hinv.keysLt (rid, req) hmem
    · exact hinv.keysLt p h
  · intro p hp'
    dsimp only at hp'
    rcases mem_setRequest hp' with h | ⟨h, _⟩
    · subst h
      exact hgood
    · exact hinv.good p h
  · intro id
    have hc : countCalls { st with requests := setRequest st.requests rid req',
                                   tokens := tokens',
                                   ledgerCalls := st.ledgerCalls ++ [(rid, d)] } id
        = countCalls st id + (if rid = id then 1 else 0) := by
      simp only [countCalls]
      exact countCalls_append_list st.ledgerCalls rid d id
    rw [hc]
    by_cases hid : rid = id
    · subst hid
      rw [countCalls_zero_of_pending hinv hmem hpend, if_pos rfl]
      exact Or.inr ⟨rfl, req', setRequest_mem hmem req', hst'⟩
    · rw [if_neg hid]
      rcases hinv.exec id with h | ⟨h1, r, hr, hst⟩
      · simp only [Nat.add_zero]
        exact Or.inl h
      · refine Or.inr ⟨by omega, r, mem_setRequest_of_ne hr (fun hc' => hid hc'.symm), hst⟩

theorem sysInv_approve {st : SysState} (hinv : SysInv st) (userId requestId : ℕ) (now : ℤ)
    (ledger : Except String TokenResult) :
    SysInv (approveTokenCreation st userId requestId now ledger).1 := by
  rcases hu : findUser st userId with _ | u
  · have h : approveTokenCreation st userId requestId now ledger
        = (st, .error .notAuthorized) := by
      simp [approveTokenCreation, hu]
    rw [h]
    exact hinv
  by_cases hrole : u.role = Role.manager
  swap
  · have h : approveTokenCreation st userId requestId now ledger
        = (st, .error .notAuthorized) := by
      simp [approveTokenCreation, hu, hrole]
    rw [h]
    exact hinv
  rcases hfr : findRequest st requestId with _ | ⟨rid, req⟩
  · have h : approveTokenCreation st userId requestId now ledger
        = (st, .error .notFound) := by
      simp [approveTokenCreation, hu, hrole, hfr]
    rw [h]
    exact hinv
  have hmem : (rid, req) ∈ st.requests := List.mem_of_find?_eq_some hfr
  by_cases hst : req.status = ReqStatus.pending
  swap
  · rw [approve_eq_of_nonpending now ledger hu hrole hfr hst]
    exact hinv
  by_cases hexp : req.expiresAt < now
  · rw [approve_eq_of_expired ledger hu hrole hfr hst hexp]
    exact sysInv_set_rejected hinv hmem hst _ rfl
  cases hany : req.signatures.any (fun sig => sig.managerId == userId) with
  | true =>
    rw [approve_eq_of_dup ledger hu hrole hfr hst hexp hany]
    exact hinv
  | false =>
    have hsig := (hinv.good _ hmem).1 hst
    have hne : req.createdBy ≠ userId := by
      intro heq
      have hcmem : req.createdBy ∈ req.signatures.map Signature.managerId := by
        rw [hsig]
        exact List.mem_singleton_self _
      rcases List.mem_map.mp hcmem with ⟨sig, hsgm, hsgid⟩
      have hT : req.signatures.any (fun sig => sig.managerId == userId) = true :=
        List.any_eq_true.mpr ⟨sig, hsgm, by rw [hsgid, heq]; simp⟩
      rw [hT] at hany
      cases hany
    cases ledger with
    | ok tr =>
      rw [approve_eq_of_ok tr hu hrole hfr hst hexp hany]
      refine sysInv_set_exec hinv hmem hst _ (Or.inl rfl) ⟨fun hx => by simp at hx, fun _ => ?_⟩ _ _
      constructor
      · rw [List.map_append, hsig]
        rfl
      · rw [List.map_append, hsig]
        simp [hne]
    | error msg =>
      rw [approve_eq_of_ledgerError msg hu hrole hfr hst hexp hany]
      exact sysInv_set_exec hinv hmem hst _ (Or.inr rfl)
        ⟨fun hx => by simp at hx, fun hx => by simp at hx⟩ _ _

theorem sysInv_step {s s' : SysState} (hinv : SysInv s) (hstep : Step s s') : SysInv s' := by
  cases hstep with
  | initiate userId body now =>
    rcases hu : findUser s userId with _ | u
    · have h : initiateTokenCreation s userId body now = (s, .error .notAuthorized) := by
        simp [initiateTokenCreation, hu]
      rw [h]
      exact hinv
    by_cases hrole : u.role = Role.manager
    swap
    · have h : initiateTokenCreation s userId body now = (s, .error .notAuthorized) := by
        simp [initiateTokenCreation, hu, hrole]
      rw [h]
      exact hinv
    by_cases htok : s.tokens = []
    swap
    · rw [initiate_eq_of_conflict body now hu hrole htok]
      exact hinv
    · rw [initiate_eq_of_ok body now hu hrole htok]
      exact sysInv_append_fresh hinv _ rfl rfl
  | approve userId requestId now ledger =>
    exact sysInv_approve hinv userId requestId now ledger
  | updateRate userId newRate now =>
    rcases hu : findUser s userId with _ | u
    · have h : updateInterestRateCtrl s userId newRate now = (s, .error .notAuthorized) := by
        simp [updateInterestRateCtrl, hu]
      rw [h]
      exact hinv
    by_cases hrole : u.role = Role.manager
    swap
    · have h : updateInterestRateCtrl s userId newRate now = (s, .error .notAuthorized) := by
        simp [updateInterestRateCtrl, hu, hrole]
      rw [h]
      exact hinv
    by_cases hval : newRate = 0 ∨ newRate < 0 ∨ newRate > 100
    · have h : updateInterestRateCtrl s userId newRate now = (s, .error .invalidRate) := by
        simp only [updateInterestRateCtrl, hu]
        simp [hrole, hval]
      rw [h]
      exact hinv
    · rw [updateRateCtrl_eq_of_ok now hu hrole hval]
      exact sysInv_append_fresh hinv _ rfl rfl

theorem reachable_sysInv {st : SysState} (h : Reachable st) : SysInv st := by
  induction h with
  | init users => exact sysInv_initial users
  | step _ hstep ih => exact sysInv_step ih hstep

/-! ## Concrete scenario used by witnesses and counterexamples -/

/-- Three registered managers. -/
def demoManagers : List User :=
  [⟨1, .manager, 101⟩, ⟨2, .manager, 102⟩, ⟨3, .manager, 103⟩]

def demoTokenParams : TokenParams := ⟨"Pezzy Money Market Token", "PMKT", 2, 0⟩

def demoTokenResult : TokenResult :=
  ⟨500, "Pezzy Money Market Token", "PMKT", 2, 0, 900, (101, 102), 7001⟩

def demoTokenResultB : TokenResult :=
  ⟨501, "Pezzy Money Market Token", "PMKT", 2, 0, 900, (101, 102), 7002⟩

def demoState0 : SysState := initialState demoManagers

/-- Manager 1 initiates token creation at time 0. -/
def demoState1 : SysState := (initiateTokenCreation demoState0 1 demoTokenParams 0).1

/-- Manager 2 approves request 0 at time 1000; the ledger call succeeds. -/
def demoState2 : SysState := (approveTokenCreation demoState1 2 0 1000 (.ok demoTokenResult)).1

/-- The stored pending request of `demoState1`. -/
def demoRequest1 : MultiSigRequest :=
  { requestType := .token_creation, requestData := .tokenParams demoTokenParams,
    requiredSignatures := 2, signatures := [⟨1, 101, 0⟩], status := .pending,
    createdBy := 1, expiresAt := 86400000 }

/-- The stored executed request of `demoState2`. -/
def demoRequest2 : MultiSigRequest :=
  { requestType := .token_creation, requestData := .tokenParams demoTokenParams,
    requiredSignatures := 2, signatures := [⟨1, 101, 0⟩, ⟨2, 102, 1000⟩],
    status := .executed, createdBy := 1, expiresAt := 86400000,
    executedAt := some 1000, executionTransactionId := some 7001 }

theorem demoState1_reachable : Reachable demoState1 :=
  Reachable.step (Reachable.init demoManagers) (Step.initiate demoState0 1 demoTokenParams 0)

theorem demoState2_reachable : Reachable demoState2 :=
  Reachable.step demoState1_reachable (Step.approve demoState1 2 0 1000 (.ok demoTokenResult))


/-- Manager 1 opens a rate-change request (new rate 10 %) at time 0. -/
def demoRateState1 : SysState := (updateInterestRateCtrl demoState0 1 10 0).1

/-- Manager 2 approves the rate-change request; the (token-creation!)
ledger call succeeds. -/
def demoRateState2 : SysState :=
  (approveTokenCreation demoRateState1 2 0 1000 (.ok demoTokenResult)).1

/-- The stored pending rate-change request of `demoRateState1`. -/
def demoRateRequest1 : MultiSigRequest :=
  { requestType := .rate_change, requestData := .rateParams 10 envAnnualRatePercent,
    requiredSignatures := 2, signatures := [⟨1, 101, 0⟩], status := .pending,
    createdBy := 1, expiresAt := 86400000 }

theorem demoRateState1_reachable : Reachable demoRateState1 :=
  Reachable.step (Reachable.init demoManagers) (Step.updateRate demoState0 1 10 0)

theorem demoRateState2_reachable : Reachable demoRateState2 :=
  Reachable.step demoRateState1_reachable
    (Step.approve demoRateState1 2 0 1000 (.ok demoTokenResult))


/-- Two token-creation requests opened before any token exists. -/
def dupState2 : SysState := (initiateTokenCreation demoState1 2 demoTokenParams 0).1

def dupState3 : SysState := (approveTokenCreation dupState2 2 0 1000 (.ok demoTokenResult)).1

def dupState4 : SysState := (approveTokenCreation dupState3 1 1 2000 (.ok demoTokenResultB)).1

theorem dupState4_reachable : Reachable dupState4 :=
  Reachable.step
    (Reachable.step
      (Reachable.step demoState1_reachable (Step.initiate demoState1 2 demoTokenParams 0))
      (Step.approve dupState2 2 0 1000 (.ok demoTokenResult)))
    (Step.approve dupState3 1 1 2000 (.ok demoTokenResultB))


/-! ## Claim theorems: multi-signature workflow -/

/-- C1: a new request records exactly one signature (the initiator's);
an approver who already signed fails with DuplicateSignatureError
without any state change; and in every reachable state an `executed`
request carries exactly 2 distinct manager identities. -/
theorem multiSig_executed_two_distinct_signers :
    (∀ (st : SysState) (userId : ℕ) (body : TokenParams) (now : ℤ) (u : User),
       findUser st userId = some u → u.role = Role.manager → st.tokens = [] →
       ∃ req : MultiSigRequest,
         (initiateTokenCreation st userId body now).1.requests
             = st.requests ++ [(st.nextRequestId, req)] ∧
         req.signatures.map Signature.managerId = [userId] ∧
         req.status = .pending) ∧
    (∀ (st : SysState) (userId requestId : ℕ) (now : ℤ)
       (ledger : Except String TokenResult) (u : User) (rid : ℕ) (req : MultiSigRequest),
       findUser st userId = some u → u.role = Role.manager →
       findRequest st requestId = some (rid, req) → req.status = .pending →
       ¬ req.expiresAt < now →
       req.signatures.any (fun sig => sig.managerId == userId) = true →
       approveTokenCreation st userId requestId now ledger
         = (st, .error .duplicateSignature)) ∧
    (∀ st : SysState, Reachable st → ∀ p ∈ st.requests, p.2.status = ReqStatus.executed →
       (p.2.signatures.map Signature.managerId).length = 2 ∧
       (p.2.signatures.map Signature.managerId).Nodup) := by
  refine ⟨?_, ?_, ?_⟩
  · intro st userId body now u hu hrole htok
    rw [initiate_eq_of_ok body now hu hrole htok]
    exact ⟨_, rfl, rfl, rfl⟩
  · intro st userId requestId now ledger u rid req hu hrole hfr hst hexp hany
    exact approve_eq_of_dup ledger hu hrole hfr hst hexp hany
  · intro st hreach p hp hex
    exact ((reachable_sysInv hreach).good p hp).2 hex

/-- Witness for C1: manager 1 initiates (one signature); manager 1's own
second approval is refused; the executed request of the two-manager run
has exactly the two distinct signers 1 and 2. -/
theorem multiSig_executed_two_distinct_signers_witness :
    (∃ req : MultiSigRequest,
       (initiateTokenCreation demoState0 1 demoTokenParams 0).1.requests
           = demoState0.requests ++ [(demoState0.nextRequestId, req)] ∧
       req.signatures.map Signature.managerId = [1] ∧
       req.status = .pending) ∧
    approveTokenCreation demoState1 1 0 1000 (.ok demoTokenResult)
        = (demoState1, .error .duplicateSignature) ∧
    (∀ p ∈ demoState2.requests, p.2.status = ReqStatus.executed →
       (p.2.signatures.map Signature.managerId).length = 2 ∧
       (p.2.signatures.map Signature.managerId).Nodup) :=
  ⟨multiSig_executed_two_distinct_signers.1 demoState0 1 demoTokenParams 0
      ⟨1, .manager, 101⟩ rfl rfl rfl,
   multiSig_executed_two_distinct_signers.2.1 demoState1 1 0 1000 (.ok demoTokenResult)
      ⟨1, .manager, 101⟩ 0 demoRequest1 rfl rfl rfl rfl (by decide) rfl,
   multiSig_executed_two_distinct_signers.2.2 demoState2 demoState2_reachable⟩

/-- C2: approving a request whose status is not `pending` fails with
InvalidStateError and changes nothing (no signature, no ledger call);
and in every reachable state at most one ledger execution has ever been
made per request. -/
theorem approve_nonpending_at_most_once :
    (∀ (st : SysState) (userId requestId : ℕ) (now : ℤ)
       (ledger : Except String TokenResult) (u : User) (rid : ℕ) (req : MultiSigRequest),
       findUser st userId = some u → u.role = Role.manager →
       findRequest st requestId = some (rid, req) → req.status ≠ ReqStatus.pending →
       approveTokenCreation st userId requestId now ledger
         = (st, .error (.invalidState (statusName req.status)))) ∧
    (∀ st : SysState, Reachable st → ∀ id : ℕ, countCalls st id ≤ 1) := by
  refine ⟨?_, ?_⟩
  · intro st userId requestId now ledger u rid req hu hrole hfr hst
    exact approve_eq_of_nonpending now ledger hu hrole hfr hst
  · intro st hreach id
    rcases (reachable_sysInv hreach).exec id with h | ⟨h1, _⟩
    · omega
    · omega

/-- Witness for C2: a third approval against the already-executed
request 0 fails with InvalidStateError and mutates nothing; request 0
has seen exactly one ledger call. -/
theorem approve_nonpending_at_most_once_witness :
    approveTokenCreation demoState2 3 0 2000 (.ok demoTokenResultB)
        = (demoState2, .error (.invalidState (statusName ReqStatus.executed))) ∧
    countCalls demoState2 0 ≤ 1 :=
  ⟨approve_nonpending_at_most_once.1 demoState2 3 0 2000 (.ok demoTokenResultB)
      ⟨3, .manager, 103⟩ 0 demoRequest2 rfl rfl rfl (by decide),
   approve_nonpending_at_most_once.2 demoState2 demoState2_reachable 0⟩

/-- C3 (counterexample): a rate-change request driven to quorum through
the (only) approval endpoint reaches `executed`, yet a ledger call IS
made and the interest-service state is NOT mutated: the configured
annual rate stays at its previous value 8.5 % instead of becoming the
requested 10 %. -/
theorem rateChange_quorum_counterexample :
    Reachable demoRateState2 ∧
    (findRequest demoRateState2 0).map (fun p => (p.2.requestType, p.2.status))
        = some (.rate_change, .executed) ∧
    demoRateState2.ledgerCalls ≠ [] ∧
    demoRateState2.interest = defaultInterestState ∧
    demoRateState2.interest.annualRate ≠ 10 / 100 := by
  refine ⟨demoRateState2_reachable, rfl, ?_, rfl, ?_⟩
  · intro h
    rw [show demoRateState2.ledgerCalls
        = [(0, .rateParams 10 envAnnualRatePercent)] from rfl] at h
    exact absurd h (List.cons_ne_nil _ _)
  · show defaultInterestState.annualRate ≠ 10 / 100
    norm_num [defaultInterestState]

/-- C3 (amended): when a rate-change request reaches quorum via the
approval endpoint, the token-creation ledger call IS invoked with the
request's `requestData` and the interest-service state is left
unchanged — no rate-change executor is wired to the approval path. -/
theorem rateChange_quorum_amended :
    ∀ (st : SysState) (userId requestId : ℕ) (now : ℤ) (tr : TokenResult)
      (u : User) (rid : ℕ) (req : MultiSigRequest),
      findUser st userId = some u → u.role = Role.manager →
      findRequest st requestId = some (rid, req) →
      req.requestType = .rate_change → req.status = .pending →
      ¬ req.expiresAt < now →
      req.signatures.any (fun sig => sig.managerId == userId) = false →
      (approveTokenCreation st userId requestId now (.ok tr)).1.interest = st.interest ∧
      (approveTokenCreation st userId requestId now (.ok tr)).1.ledgerCalls
          = st.ledgerCalls ++ [(rid, req.requestData)] := by
  intro st userId requestId now tr u rid req hu hrole hfr _ hst hexp hany
  rw [approve_eq_of_ok tr hu hrole hfr hst hexp hany]
  exact ⟨rfl, rfl⟩

/-- Witness for C3 (amended): the concrete rate-change approval run. -/
theorem rateChange_quorum_amended_witness :
    (approveTokenCreation demoRateState1 2 0 1000 (.ok demoTokenResult)).1.interest
        = demoRateState1.interest ∧
    (approveTokenCreation demoRateState1 2 0 1000 (.ok demoTokenResult)).1.ledgerCalls
        = demoRateState1.ledgerCalls ++ [(0, demoRateRequest1.requestData)] :=
  rateChange_quorum_amended demoRateState1 2 0 1000 demoTokenResult
    ⟨2, .manager, 102⟩ 0 demoRateRequest1 rfl rfl rfl rfl rfl (by decide) rfl

/-- C4: failing state-machine and execution errors commit their
transition before raising: an expired pending request is persisted as
`rejected` and only then does the call fail with ExpiredError; a failed
ledger execution persists the request as `rejected` with the error in
`metadata` (after exactly one ledger call, never retried) and re-raises
it as LedgerRejectedError. -/
theorem failing_transitions_committed :
    (∀ (st : SysState) (userId requestId : ℕ) (now : ℤ)
       (ledger : Except String TokenResult) (u : User) (rid : ℕ) (req : MultiSigRequest),
       findUser st userId = some u → u.role = Role.manager →
       findRequest st requestId = some (rid, req) → req.status = .pending →
       req.expiresAt < now →
       approveTokenCreation st userId requestId now ledger
         = ({ st with
                requests := setRequest st.requests rid
                  ({ req with status := .rejected }) },
            .error .expired)) ∧
    (∀ (st : SysState) (userId requestId : ℕ) (now : ℤ) (msg : String)
       (u : User) (rid : ℕ) (req : MultiSigRequest),
       findUser st userId = some u → u.role = Role.manager →
       findRequest st requestId = some (rid, req) → req.status = .pending →
       ¬ req.expiresAt < now →
       req.signatures.any (fun sig => sig.managerId == userId) = false →
       approveTokenCreation st userId requestId now (.error msg)
         = ({ st with
                requests := setRequest st.requests rid
                  ({ req with
                       signatures := req.signatures ++
                         [{ managerId := userId, managerAccountId := u.hederaAccountId,
                            signedAt := now }],
                       status := .rejected, metadata := some msg }),
                ledgerCalls := st.ledgerCalls ++ [(rid, req.requestData)] },
            .error (.ledgerRejected msg))) := by
  refine ⟨?_, ?_⟩
  · intro st userId requestId now ledger u rid req hu hrole hfr hst hexp
    exact approve_eq_of_expired ledger hu hrole hfr hst hexp
  · intro st userId requestId now msg u rid req hu hrole hfr hst hexp hany
    exact approve_eq_of_ledgerError msg hu hrole hfr hst hexp hany

/-- Witness for C4: approving request 0 after its 24-hour expiry marks
it rejected and fails; a ledger failure on a timely approval marks it
rejected with the error recorded. -/
theorem failing_transitions_committed_witness :
    approveTokenCreation demoState1 2 0 100000000 (.ok demoTokenResult)
        = ({ demoState1 with
               requests := setRequest demoState1.requests 0
                 ({ demoRequest1 with status := .rejected }) },
           .error .expired) ∧
    approveTokenCreation demoState1 2 0 1000 (.error "INSUFFICIENT_TX_FEE")
        = ({ demoState1 with
               requests := setRequest demoState1.requests 0
                 ({ demoRequest1 with
                      signatures := demoRequest1.signatures ++ [⟨2, 102, 1000⟩],
                      status := .rejected, metadata := some "INSUFFICIENT_TX_FEE" }),
               ledgerCalls := demoState1.ledgerCalls ++ [(0, demoRequest1.requestData)] },
           .error (.ledgerRejected "INSUFFICIENT_TX_FEE")) :=
  ⟨failing_transitions_committed.1 demoState1 2 0 100000000 (.ok demoTokenResult)
      ⟨2, .manager, 102⟩ 0 demoRequest1 rfl rfl rfl rfl (by decide),
   failing_transitions_committed.2 demoState1 2 0 1000 "INSUFFICIENT_TX_FEE"
      ⟨2, .manager, 102⟩ 0 demoRequest1 rfl rfl rfl rfl (by decide) rfl⟩

/-- C9 (counterexample): two token-creation requests opened before any
token exists can BOTH be driven to execution — `approveTokenCreation`
never re-checks the Token singleton — leaving two Token records in a
reachable state. -/
theorem second_token_creation_counterexample :
    Reachable dupState4 ∧ dupState4.tokens.length = 2 :=
  ⟨dupState4_reachable, rfl⟩

/-- C9 (amended): while a Token record exists, `initiateTokenCreation`
fails with ConflictError and creates no request (so every initiate after
a successful creation fails); with no token yet it opens a fresh pending
token-creation request.  The guard lives in `initiate` only: `approve`
does not re-check it, so requests opened before the first token can
still execute (see the counterexample). -/
theorem initiate_conflict_amended :
    ∀ (st : SysState) (userId : ℕ) (body : TokenParams) (now : ℤ) (u : User),
      findUser st userId = some u → u.role = Role.manager →
      (st.tokens ≠ [] →
        initiateTokenCreation st userId body now = (st, .error .conflict)) ∧
      (st.tokens = [] →
        (initiateTokenCreation st userId body now).2 = .ok st.nextRequestId ∧
        ∃ req : MultiSigRequest,
          (initiateTokenCreation st userId body now).1.requests
              = st.requests ++ [(st.nextRequestId, req)] ∧
          req.requestType = .token_creation ∧ req.status = .pending) := by
  intro st userId body now u hu hrole
  constructor
  · intro htok
    exact initiate_eq_of_conflict body now hu hrole htok
  · intro htok
    rw [initiate_eq_of_ok body now hu hrole htok]
    exact ⟨rfl, _, rfl, rfl, rfl⟩

/-- Witness for C9 (amended): after the successful creation
(`demoState2` holds a Token), manager 3's initiate fails with
ConflictError; on the fresh deployment it succeeds. -/
theorem initiate_conflict_amended_witness :
    initiateTokenCreation demoState2 3 demoTokenParams 2000
        = (demoState2, .error .conflict) ∧
    (initiateTokenCreation demoState0 1 demoTokenParams 0).2 = .ok demoState0.nextRequestId :=
  ⟨(initiate_conflict_amended demoState2 3 demoTokenParams 2000
      ⟨3, .manager, 103⟩ rfl rfl).1 (by decide),
   ((initiate_conflict_amended demoState0 1 demoTokenParams 0
      ⟨1, .manager, 101⟩ rfl rfl).2 rfl).1⟩

/-- C10: `approveTokenCreation` never inspects `requestType`: for ANY
pending, unexpired request, a valid second-manager approval invokes the
token-creation ledger call with that request's `requestData`, and on
success inserts a Token record and marks the request executed. -/
theorem approve_ignores_requestType :
    ∀ (st : SysState) (userId requestId : ℕ) (now : ℤ) (tr : TokenResult)
      (u : User) (rid : ℕ) (req : MultiSigRequest),
      findUser st userId = some u → u.role = Role.manager →
      findRequest st requestId = some (rid, req) → req.status = .pending →
      ¬ req.expiresAt < now →
      req.signatures.any (fun sig => sig.managerId == userId) = false →
      approveTokenCreation st userId requestId now (.ok tr)
        = ({ st with
               requests := setRequest st.requests rid
                 ({ req with
                      signatures := req.signatures ++
                        [{ managerId := userId, managerAccountId := u.hederaAccountId,
                           signedAt := now }],
                      status := .executed, executedAt := some now,
                      executionTransactionId := some tr.transactionId }),
               tokens := st.tokens ++ [tokenOfResult tr],
               ledgerCalls := st.ledgerCalls ++ [(rid, req.requestData)] },
           .ok tr) := by
  intro st userId requestId now tr u rid req hu hrole hfr hst hexp hany
  exact approve_eq_of_ok tr hu hrole hfr hst hexp hany

/-- Witness for C10: the approval of a `rate_change` request runs the
token-creation executor on its rate payload and stores a Token. -/
theorem approve_ignores_requestType_witness :
    approveTokenCreation demoRateState1 2 0 1000 (.ok demoTokenResult)
        = ({ demoRateState1 with
               requests := setRequest demoRateState1.requests 0
                 ({ demoRateRequest1 with
                      signatures := demoRateRequest1.signatures ++ [⟨2, 102, 1000⟩],
                      status := .executed, executedAt := some 1000,
                      executionTransactionId := some demoTokenResult.transactionId }),
               tokens := demoRateState1.tokens ++ [tokenOfResult demoTokenResult],
               ledgerCalls := demoRateState1.ledgerCalls
                 ++ [(0, demoRateRequest1.requestData)] },
           .ok demoTokenResult) :=
  approve_ignores_requestType demoRateState1 2 0 1000 demoTokenResult
    ⟨2, .manager, 102⟩ 0 demoRateRequest1 rfl rfl rfl rfl (by decide) rfl
